import Mathlib

/-!
Verification of the hybrid ORM + raw SQL HTTP service in `src/main.py`.

The handlers are embedded shallowly: the database is an explicit state
(two tables plus the id sequence of `items`), a request-scoped session
carries a `persisted` and a `pending` view so that commit/rollback are
meaningful, PostgreSQL built-ins that the raw SQL delegates to the
database engine (full-text match/rank, `DATE_TRUNC`) are oracle
parameters, and data-layer exceptions are modelled by explicit failure
oracles. Fallible handlers return `Except HTTPException`.
-/

namespace Hybrid

/-- An `HTTPException(status_code, detail)` raised by a handler. -/
structure HTTPException where
  status : Nat
  detail : String
deriving Repr, DecidableEq

/-- Pydantic input model `ItemCreate` (src/main.py:43): a required `name`
string (pydantic places no non-emptiness constraint on it) and an optional
`description`. -/
structure ItemCreate where
  name : String
  description : Option String := none
deriving Repr, DecidableEq

/-- ORM row of table `items` (src/main.py:26). Timestamps are abstract
instants modelled as naturals. -/
structure Item where
  id : Nat
  name : String
  description : Option String
  created_at : Nat
deriving Repr, DecidableEq

/-- ORM row of table `users` (src/main.py:34). -/
structure User where
  id : Nat
  username : String
  email : String
  created_at : Nat
deriving Repr, DecidableEq

/-- The persistent database state: both tables in storage order plus the
generator for the next `items.id` value. -/
structure DB where
  items : List Item
  users : List User
  nextItemId : Nat
deriving Repr, DecidableEq

/-- A request-scoped SQLAlchemy session: `persisted` is the committed
database, `pending` the uncommitted view that statements act on. -/
structure Session where
  persisted : DB
  pending : DB
deriving Repr, DecidableEq

/-- A fresh session sees the committed state. -/
def Session.fresh (db : DB) : Session := ⟨db, db⟩

/-- `db.commit()` makes the pending writes durable. -/
def Session.commit (s : Session) : Session := ⟨s.pending, s.pending⟩

/-- `db.rollback()` discards the pending writes. -/
def Session.rollback (s : Session) : Session := ⟨s.persisted, s.persisted⟩

/-- `create_item_orm` (src/main.py:106): add one row with a server-assigned
id and timestamp and commit; if the data layer raises (`fail = some e`),
roll back and answer 500 with the error text. -/
def create_item_orm (db : DB) (now : Nat) (item : ItemCreate) (fail : Option String) :
    Except HTTPException Item × DB :=
  match fail with
  | some e => (.error ⟨500, e⟩, (Session.fresh db).rollback.persisted)
  | none =>
    let row : Item := ⟨db.nextItemId, item.name, item.description, now⟩
    let s : Session := { Session.fresh db with
      pending := { db with items := db.items ++ [row], nextItemId := db.nextItemId + 1 } }
    (.ok row, s.commit.persisted)

/-- `list_items_orm` (src/main.py:119): `offset(skip).limit(limit)` over the
items table in its default order, with FastAPI defaults `skip=0, limit=10`. -/
def list_items_orm (db : DB) (skip : Nat := 0) (limit : Nat := 10) : List Item :=
  (db.items.drop skip).take limit

/-- `get_item_orm` (src/main.py:125): first row with the given id, 404 if none. -/
def get_item_orm (db : DB) (item_id : Nat) : Except HTTPException Item :=
  match db.items.find? (fun i => i.id == item_id) with
  | none => .error ⟨404, "Item not found"⟩
  | some i => .ok i

/-- One result row of the search endpoint (src/main.py:156). -/
structure SearchRow where
  id : Nat
  name : String
  description : Option String
  created_at : Nat
  relevance_score : Int
deriving Repr, DecidableEq

/-- The searched document `name || ' ' || COALESCE(description, '')`. -/
def searchDoc (i : Item) : String := i.name ++ " " ++ i.description.getD ""

/-- The `ORDER BY rank DESC, created_at DESC` comparator, given each item's
rank for the current query. -/
def searchLE (rank : Item → Int) (a b : Item) : Bool :=
  decide (rank b < rank a) || (decide (rank b = rank a) && decide (b.created_at ≤ a.created_at))

/-- `search_items_raw_sql` (src/main.py:137): filter by full-text match over
the document, order by rank descending then recency descending, `LIMIT 20`,
and report each row with its `relevance_score`. `tsMatch doc q` and
`tsRank doc q` are oracles for the PostgreSQL built-ins
`to_tsvector .. @@ plainto_tsquery ..` and `ts_rank`. -/
def search_items_raw_sql (tsMatch : String → String → Bool) (tsRank : String → String → Int)
    (db : DB) (query : String) : String × List SearchRow :=
  let matched := db.items.filter (fun i => tsMatch (searchDoc i) query)
  let sorted := matched.mergeSort (searchLE (fun i => tsRank (searchDoc i) query))
  (query, (sorted.take 20).map
    (fun i => ⟨i.id, i.name, i.description, i.created_at, tsRank (searchDoc i) query⟩))

/-- One entry of the per-month breakdown (src/main.py:193). -/
structure MonthEntry where
  month : Nat
  items_created : Nat
  avg_name_length : Rat
deriving Repr, DecidableEq

/-- The analytics payload built by `json_build_object` (src/main.py:188). -/
structure Analytics where
  total_items : Nat
  first_item_date : Nat
  last_item_date : Nat
  monthly_breakdown : List MonthEntry
deriving Repr, DecidableEq

/-- `ROUND(x, 2)` of PostgreSQL on the (nonnegative) numeric average. -/
def round2 (q : Rat) : Rat := (round (q * 100) : Int) / 100

/-- Comparator for `ORDER BY ms.month DESC`. -/
def natDescLE (a b : Nat) : Bool := decide (b ≤ a)

/-- The distinct months of `monthly_stats`, ordered `month DESC`.
`monthOf` is the oracle for `DATE_TRUNC('month', ·)`. -/
def monthsSorted (monthOf : Nat → Nat) (l : List Item) : List Nat :=
  ((l.map (fun i => monthOf i.created_at)).dedup).mergeSort natDescLE

/-- One row of `monthly_stats` for month `m`, rendered by
`json_build_object` (src/main.py:193): the month, `COUNT(*)` and
`ROUND(AVG(LENGTH(name)), 2)` over the items of that month. -/
def monthEntry (monthOf : Nat → Nat) (l : List Item) (m : Nat) : MonthEntry :=
  ⟨m, (l.filter (fun i => monthOf i.created_at == m)).length,
    round2 (((l.filter (fun i => monthOf i.created_at == m)).map
        (fun i => (i.name.length : Rat))).sum /
      ((l.filter (fun i => monthOf i.created_at == m)).length : Rat))⟩

/-- The analytics payload over a nonempty items table `i0 :: rest`: the
`total_stats` aggregates and the monthly breakdown ordered
`ORDER BY ms.month DESC`. -/
def analyticsOf (monthOf : Nat → Nat) (i0 : Item) (rest : List Item) : Analytics :=
  { total_items := (i0 :: rest).length
    first_item_date := rest.foldl (fun a j => min a j.created_at) i0.created_at
    last_item_date := rest.foldl (fun a j => max a j.created_at) i0.created_at
    monthly_breakdown :=
      (monthsSorted monthOf (i0 :: rest)).map (monthEntry monthOf (i0 :: rest)) }

/-- `get_items_analytics_raw_sql` (src/main.py:167): one query computing the
total count, the first and last creation instants, and the per-month
breakdown (count and rounded average name length) ordered newest month
first. With no items the `CROSS JOIN` yields no row, `fetchone` gives
`None` and the handler answers `{}`, modelled as `none`. -/
def get_items_analytics_raw_sql (monthOf : Nat → Nat) (db : DB) : Option Analytics :=
  match db.items with
  | [] => none
  | i0 :: rest => some (analyticsOf monthOf i0 rest)

/-- The rows produced by the bulk `INSERT ... RETURNING` (src/main.py:225):
consecutive ids from the sequence and the single server timestamp `NOW()`. -/
def assignRows (nextId now : Nat) : List ItemCreate → List Item
  | [] => []
  | it :: rest => ⟨nextId, it.name, it.description, now⟩ :: assignRows (nextId + 1) now rest

/-- The bulk-create response body (src/main.py:250). -/
structure BulkResponse where
  message : String
  items : List Item
deriving Repr, DecidableEq

/-- Effect of executing the single bulk INSERT statement on the session.
`fail = some (k, e)` models the statement raising error text `e` after
having written `k` of the rows to the pending state. -/
def bulkInsertStatement (s : Session) (now : Nat) (items : List ItemCreate)
    (fail : Option (Nat × String)) : Session × Except String (List Item) :=
  match fail with
  | none =>
    let rows := assignRows s.pending.nextItemId now items
    let pending2 : DB :=
      ⟨s.pending.items ++ rows, s.pending.users, s.pending.nextItemId + items.length⟩
    ({ s with pending := pending2 }, .ok rows)
  | some (k, e) =>
    let rows := assignRows s.pending.nextItemId now (items.take k)
    let pending2 : DB :=
      ⟨s.pending.items ++ rows, s.pending.users, s.pending.nextItemId + (items.take k).length⟩
    ({ s with pending := pending2 }, .error e)

/-- `bulk_create_items_raw_sql` (src/main.py:210): reject with 400 when the
list is empty (`not items`) or longer than 1000; otherwise run the single
INSERT, commit on success and return the created rows with a count message,
or roll back on a raised error and answer 500 with its text. -/
def bulk_create_items_raw_sql (db : DB) (now : Nat) (items : List ItemCreate)
    (fail : Option (Nat × String)) : Except HTTPException BulkResponse × DB :=
  if items = [] ∨ 1000 < items.length then
    (.error ⟨400, "Invalid item count (max 1000)"⟩, db)
  else
    let s := Session.fresh db
    let (s1, r) := bulkInsertStatement s now items fail
    match r with
    | .ok created =>
      (.ok ⟨"Created " ++ toString created.length ++ " items", created⟩, s1.commit.persisted)
    | .error e => (.error ⟨500, e⟩, s1.rollback.persisted)

/-- A raw result row, treated as an opaque column-to-value dict. -/
abbrev RawRow := List (String × String)

/-- The user-items response body (src/main.py:289). -/
structure UserItemsResponse where
  user_id : Nat
  username : String
  email : String
  items : List RawRow
  total_count : Nat
deriving Repr, DecidableEq

/-- `get_user_items_hybrid` (src/main.py:262): ORM existence check first
(404 when absent), then the raw join against the unmodeled `user_items`
table, modelled by the oracle `runQuery`; a raised query error surfaces as
500 with its text. -/
def get_user_items_hybrid (db : DB) (runQuery : Nat → Except String (List RawRow))
    (user_id : Nat) : Except HTTPException UserItemsResponse :=
  match db.users.find? (fun u => u.id == user_id) with
  | none => .error ⟨404, "User not found"⟩
  | some u =>
    match runQuery user_id with
    | .error e => .error ⟨500, e⟩
    | .ok rows => .ok ⟨u.id, u.username, u.email, rows, rows.length⟩

/-- The characters stripped by Python `str.strip()` (ASCII whitespace). -/
def pyIsSpace (c : Char) : Bool :=
  c == ' ' || c == '\t' || c == '\n' || c == '\r' || c == '\x0b' || c == '\x0c'

/-- Python `str.strip()` on the character list: drop the whitespace run at
both ends. -/
def pyStrip (l : List Char) : List Char :=
  ((l.dropWhile pyIsSpace).reverse.dropWhile pyIsSpace).reverse

/-- The guard `query.strip().lower().startswith('select')` (src/main.py:322). -/
def startsWithSelect (query : String) : Bool :=
  "select".toList.isPrefixOf ((pyStrip query.toList).map Char.toLower)

/-- The debug endpoint's response body (src/main.py:326). -/
structure DebugResponse where
  query : String
  result : List RawRow
deriving Repr, DecidableEq

/-- `debug_raw_query` (src/main.py:314): 403 outside the `development`
environment; then 400 unless the stripped, lowered query starts with
`select`; then execute the raw text (oracle `runQuery`), answering its rows,
or 400 carrying the error text when the execution raises (every exception
inside the try block is re-raised with status 400). -/
def debug_raw_query (environment : String) (runQuery : String → Except String (List RawRow))
    (query : String) : Except HTTPException DebugResponse :=
  if environment ≠ "development" then
    .error ⟨403, "Debug endpoint disabled in production"⟩
  else if ! startsWithSelect query then
    .error ⟨400, "Only SELECT queries allowed"⟩
  else
    match runQuery query with
    | .ok rows => .ok ⟨query, rows⟩
    | .error e => .error ⟨400, e⟩

/-! Helper lemmas. -/

/-- The bulk INSERT returns as many rows as it was given values. -/
theorem assignRows_length (nextId now : Nat) (l : List ItemCreate) :
    (assignRows nextId now l).length = l.length := by
  induction l generalizing nextId with
  | nil => rfl
  | cons it rest ih => simp [assignRows, ih]

/-- The ids assigned by the bulk INSERT are the consecutive sequence values. -/
theorem assignRows_map_id (nextId now : Nat) (l : List ItemCreate) :
    (assignRows nextId now l).map Item.id = List.range' nextId l.length := by
  induction l generalizing nextId with
  | nil => rfl
  | cons it rest ih => simp [assignRows, List.range', ih]

/-! Concrete fixtures used by witnesses and testable-property instances. -/

/-- Three valid bulk inputs. -/
def threeItems : List ItemCreate := [⟨"alpha", none⟩, ⟨"beta", some "b"⟩, ⟨"gamma", none⟩]

/-- A database obtained by creating 15 items through `create_item_orm`. -/
def seedDB : DB :=
  (List.range 15).foldl
    (fun d k => (create_item_orm d k ⟨"item" ++ toString k, none⟩ none).2) ⟨[], [], 1⟩

/-- A database holding one user. -/
def oneUserDB : DB := ⟨[], [⟨1, "alice", "alice@example.com", 0⟩], 1⟩

/-! Claims. -/

/-- C1: a bulk-create request is answered with the 400 bad-request failure
iff the input list is empty or has more than 1000 elements (so every length
from 1 to 1000 passes the count check), and bulk-creating 3 valid items
returns exactly 3 created records with pairwise distinct generated ids. -/
theorem bulk_create_count_check (db : DB) (now : Nat) (items : List ItemCreate)
    (fail : Option (Nat × String)) :
    ((bulk_create_items_raw_sql db now items fail).1 =
        .error ⟨400, "Invalid item count (max 1000)"⟩ ↔ (items = [] ∨ 1000 < items.length))
    ∧ (bulk_create_items_raw_sql ⟨[], [], 1⟩ 5 threeItems none).1 =
        .ok ⟨"Created 3 items", assignRows 1 5 threeItems⟩
    ∧ (assignRows 1 5 threeItems).length = 3
    ∧ ((assignRows 1 5 threeItems).map Item.id).Nodup := by
  refine ⟨⟨?_, ?_⟩, rfl, by decide, by decide⟩
  · intro h
    by_contra hc
    rw [bulk_create_items_raw_sql, if_neg hc] at h
    cases fail with
    | none => simp [bulkInsertStatement] at h
    | some ke => obtain ⟨k, e⟩ := ke; simp [bulkInsertStatement] at h
  · intro h
    rw [bulk_create_items_raw_sql, if_pos h]

/-- C2: outside the "development" environment the debug endpoint fails with
403 whatever the query string contains — the environment check fires before
and independently of the SELECT-keyword check. -/
theorem debug_disabled_outside_development
    (environment : String) (runQuery : String → Except String (List RawRow)) (query : String)
    (h : environment ≠ "development") :
    debug_raw_query environment runQuery query =
      .error ⟨403, "Debug endpoint disabled in production"⟩ := by
  simp [debug_raw_query, h]

/-- C2 witness: in "production" even a well-formed SELECT query is rejected
with 403. -/
theorem debug_disabled_outside_development_witness :
    debug_raw_query "production" (fun _ => .ok []) "SELECT 1" =
      .error ⟨403, "Debug endpoint disabled in production"⟩ :=
  debug_disabled_outside_development "production" (fun _ => .ok []) "SELECT 1" (by decide)

/-- C3: in the "development" environment the debug query is rejected with
400 "Only SELECT queries allowed" unless its stripped text begins with
"select" case-insensitively, and a query that does begin with the keyword is
executed, its raw rows being returned when the execution succeeds. -/
theorem debug_select_gate_in_development
    (runQuery : String → Except String (List RawRow)) (query : String) :
    (startsWithSelect query = false →
      debug_raw_query "development" runQuery query =
        .error ⟨400, "Only SELECT queries allowed"⟩)
    ∧ (startsWithSelect query = true → ∀ rows, runQuery query = .ok rows →
        debug_raw_query "development" runQuery query = .ok ⟨query, rows⟩) := by
  constructor
  · intro h; simp [debug_raw_query, h]
  · intro h rows hr; simp [debug_raw_query, h, hr]

/-- C3 witness: "SELECT 1" is executed and returns its rows, while a
non-SELECT query is rejected with 400. -/
theorem debug_select_gate_in_development_witness :
    debug_raw_query "development" (fun _ => .ok []) "SELECT 1" = .ok ⟨"SELECT 1", []⟩ ∧
    debug_raw_query "development" (fun _ => .ok []) "DROP TABLE items" =
      .error ⟨400, "Only SELECT queries allowed"⟩ :=
  ⟨(debug_select_gate_in_development (fun _ => .ok []) "SELECT 1").2 (by decide) [] rfl,
   (debug_select_gate_in_development (fun _ => .ok []) "DROP TABLE items").1 (by decide)⟩

/-- C4: once the count check passes, bulk-create is all-or-nothing — with no
data-layer failure every row is inserted with its server id and timestamp
and the created records come back with the count message, while a failure
raised after any partial write rolls the whole batch back, leaving the
stored table unchanged, and answers 500 with the original error text. -/
theorem bulk_create_all_or_nothing (db : DB) (now : Nat) (items : List ItemCreate)
    (h1 : items ≠ []) (h2 : items.length ≤ 1000) :
    (bulk_create_items_raw_sql db now items none =
      (.ok ⟨"Created " ++ toString items.length ++ " items", assignRows db.nextItemId now items⟩,
       ⟨db.items ++ assignRows db.nextItemId now items, db.users, db.nextItemId + items.length⟩))
    ∧ (∀ k e, bulk_create_items_raw_sql db now items (some (k, e)) =
        (.error ⟨500, e⟩, db)) := by
  have hc : ¬(items = [] ∨ 1000 < items.length) := by
    rintro (h | h)
    · exact h1 h
    · omega
  constructor
  · rw [bulk_create_items_raw_sql, if_neg hc]
    simp [bulkInsertStatement, Session.fresh, Session.commit, assignRows_length]
  · intro k e
    rw [bulk_create_items_raw_sql, if_neg hc]
    simp [bulkInsertStatement, Session.fresh, Session.rollback]

/-- C4 witness: a failure raised after one partial row write leaves the
database unchanged, and the failure-free run inserts the batch. -/
theorem bulk_create_all_or_nothing_witness :
    bulk_create_items_raw_sql ⟨[], [], 1⟩ 7 [⟨"x", none⟩] (some (1, "boom")) =
      (.error ⟨500, "boom"⟩, ⟨[], [], 1⟩) ∧
    bulk_create_items_raw_sql ⟨[], [], 1⟩ 7 [⟨"x", none⟩] none =
      (.ok ⟨"Created 1 items", assignRows 1 7 [⟨"x", none⟩]⟩,
       ⟨assignRows 1 7 [⟨"x", none⟩], [], 2⟩) := by
  constructor
  · exact (bulk_create_all_or_nothing ⟨[], [], 1⟩ 7 [⟨"x", none⟩]
      (by decide) (by decide)).2 1 "boom"
  · have h := (bulk_create_all_or_nothing ⟨[], [], 1⟩ 7 [⟨"x", none⟩]
      (by decide) (by decide)).1
    simpa using h

/-- C5 counterexample: a create-item request whose name is the empty string
is not rejected — it succeeds and the empty-named row is persisted. -/
theorem create_item_empty_name_persisted :
    create_item_orm ⟨[], [], 1⟩ 0 ⟨"", none⟩ none =
      (.ok ⟨1, "", none, 0⟩, ⟨[⟨1, "", none, 0⟩], [], 2⟩) := rfl

/-- C5 amended: `name` is a required text field but no non-emptiness check
exists — a create-item request with an empty-string name is accepted and
persisted like any other (absent a data-layer failure). -/
theorem create_item_accepts_empty_name (db : DB) (now : Nat) (d : Option String) :
    (create_item_orm db now ⟨"", d⟩ none).1 = .ok ⟨db.nextItemId, "", d, now⟩ ∧
    ((create_item_orm db now ⟨"", d⟩ none).2).items =
      db.items ++ [⟨db.nextItemId, "", d, now⟩] :=
  ⟨rfl, rfl⟩

/-- C8: list-items defaults to `skip=0, limit=10`, returns the window of at
most `limit` records after dropping the first `skip` with no upper bound
enforced on `limit`, and over the 15 seeded items the page `skip=0,limit=10`
has exactly 10 records while `skip=10,limit=10` has the remaining 5. -/
theorem list_items_pagination :
    (∀ db : DB, list_items_orm db = db.items.take 10) ∧
    (∀ (db : DB) (skip limit : Nat),
        list_items_orm db skip limit = (db.items.drop skip).take limit ∧
        (list_items_orm db skip limit).length = min limit (db.items.length - skip)) ∧
    seedDB.items.length = 15 ∧
    (list_items_orm seedDB 0 10).length = 10 ∧
    (list_items_orm seedDB 10 10).length = 5 ∧
    list_items_orm seedDB 0 10 ++ list_items_orm seedDB 10 10 = seedDB.items := by
  refine ⟨fun db => rfl, fun db skip limit => ⟨rfl, ?_⟩, by decide, by decide, by decide, by decide⟩
  simp [list_items_orm, List.length_take, List.length_drop]

/-- C9: the user-items handler checks user existence first — an absent user
id yields 404 and the response does not depend on the raw item query at all,
while for an existing user the raw query runs, a raised error answering 500
with its text and a success answering the user with the fetched rows. -/
theorem user_items_existence_then_query
    (db : DB) (rq rq2 : Nat → Except String (List RawRow)) (uid : Nat) :
    (db.users.find? (fun u => u.id == uid) = none →
        get_user_items_hybrid db rq uid = .error ⟨404, "User not found"⟩ ∧
        get_user_items_hybrid db rq uid = get_user_items_hybrid db rq2 uid)
    ∧ (∀ u, db.users.find? (fun u => u.id == uid) = some u →
        (∀ e, rq uid = .error e →
            get_user_items_hybrid db rq uid = .error ⟨500, e⟩)
        ∧ (∀ rows, rq uid = .ok rows →
            get_user_items_hybrid db rq uid =
              .ok ⟨u.id, u.username, u.email, rows, rows.length⟩)) := by
  constructor
  · intro h
    exact ⟨by simp [get_user_items_hybrid, h], by simp [get_user_items_hybrid, h]⟩
  · intro u h
    constructor
    · intro e he; simp [get_user_items_hybrid, h, he]
    · intro rows hr; simp [get_user_items_hybrid, h, hr]

/-- C9 witness: with one stored user, id 2 yields 404 even though the raw
query would fail, and id 1 surfaces the raw query failure as 500. -/
theorem user_items_existence_then_query_witness :
    get_user_items_hybrid oneUserDB (fun _ => .error "boom") 2 =
      .error ⟨404, "User not found"⟩ ∧
    get_user_items_hybrid oneUserDB (fun _ => .error "boom") 1 =
      .error ⟨500, "boom"⟩ := by
  constructor
  · exact ((user_items_existence_then_query oneUserDB (fun _ => .error "boom")
      (fun _ => .ok []) 2).1 (by decide)).1
  · exact (((user_items_existence_then_query oneUserDB (fun _ => .error "boom")
      (fun _ => .ok []) 1).2 ⟨1, "alice", "alice@example.com", 0⟩ (by decide)).1 "boom" rfl)

/-- The comparator `searchLE` as the proposition it decides. -/
theorem searchLE_eq_true (rank : Item → Int) (a b : Item) :
    searchLE rank a b = true ↔
      (rank b < rank a ∨ (rank b = rank a ∧ b.created_at ≤ a.created_at)) := by
  simp [searchLE]

/-- `searchLE` is transitive. -/
theorem searchLE_trans (rank : Item → Int) (a b c : Item)
    (h1 : searchLE rank a b = true) (h2 : searchLE rank b c = true) :
    searchLE rank a c = true := by
  rw [searchLE_eq_true] at h1 h2 ⊢
  rcases h1 with h1 | ⟨h1, h1c⟩ <;> rcases h2 with h2 | ⟨h2, h2c⟩ <;>
    first
      | exact Or.inl (by omega)
      | exact Or.inr ⟨by omega, by omega⟩

/-- `searchLE` is total. -/
theorem searchLE_total (rank : Item → Int) (a b : Item) :
    (searchLE rank a b || searchLE rank b a) = true := by
  simp only [Bool.or_eq_true, searchLE_eq_true]
  omega

/-- The `ORDER BY rank DESC, created_at DESC` order on result rows. -/
def rowOrdered (a b : SearchRow) : Prop :=
  b.relevance_score < a.relevance_score ∨
    (b.relevance_score = a.relevance_score ∧ b.created_at ≤ a.created_at)

/-- C6: the search endpoint echoes the query and returns at most 20 rows,
ordered by relevance score descending then creation instant descending; each
row is a matching stored item carrying its numeric relevance score, and a
query term matched by no item yields the empty result list, not an error. -/
theorem search_items_ranked_limited
    (tsMatch : String → String → Bool) (tsRank : String → String → Int)
    (db : DB) (query : String) :
    ((search_items_raw_sql tsMatch tsRank db query).1 = query)
    ∧ ((search_items_raw_sql tsMatch tsRank db query).2.length ≤ 20)
    ∧ (search_items_raw_sql tsMatch tsRank db query).2.Pairwise rowOrdered
    ∧ (∀ r ∈ (search_items_raw_sql tsMatch tsRank db query).2,
        ∃ i ∈ db.items, tsMatch (searchDoc i) query = true ∧
          r = ⟨i.id, i.name, i.description, i.created_at, tsRank (searchDoc i) query⟩)
    ∧ ((∀ i ∈ db.items, tsMatch (searchDoc i) query = false) →
        (search_items_raw_sql tsMatch tsRank db query).2 = []) := by
  refine ⟨rfl, ?_, ?_, ?_, ?_⟩
  · simp [search_items_raw_sql, List.length_take]
  · have hs := List.sorted_mergeSort
      (searchLE_trans (fun i => tsRank (searchDoc i) query))
      (searchLE_total (fun i => tsRank (searchDoc i) query))
      (db.items.filter (fun i => tsMatch (searchDoc i) query))
    have htake := List.Pairwise.sublist (List.take_sublist 20 _) hs
    simp only [search_items_raw_sql]
    rw [List.pairwise_map]
    refine htake.imp ?_
    intro a b hab
    rw [searchLE_eq_true] at hab
    exact hab
  · intro r hr
    simp only [search_items_raw_sql, List.mem_map] at hr
    obtain ⟨i, hi, hr⟩ := hr
    have hi2 : i ∈ (db.items.filter (fun i => tsMatch (searchDoc i) query)).mergeSort
        (searchLE (fun i => tsRank (searchDoc i) query)) :=
      (List.take_sublist 20 _).mem hi
    rw [List.mem_mergeSort, List.mem_filter] at hi2
    exact ⟨i, hi2.1, hi2.2, hr.symm⟩
  · intro h
    have hnil : db.items.filter (fun i => tsMatch (searchDoc i) query) = [] := by
      rw [List.filter_eq_nil_iff]
      intro i hi
      simp [h i hi]
    simp [search_items_raw_sql, hnil]

/-- C6 witness: a query matched by no stored item returns the empty list. -/
theorem search_items_ranked_limited_witness :
    (search_items_raw_sql (fun _ _ => false) (fun _ _ => 0) seedDB "zzz").2 = [] :=
  (search_items_ranked_limited (fun _ _ => false) (fun _ _ => 0) seedDB "zzz").2.2.2.2
    (fun _ _ => rfl)

/-- A `foldl` of `min` over creation instants bounds its seed and every
element from below. -/
theorem foldl_min_le (l : List Item) (a : Nat) :
    (l.foldl (fun acc j => min acc j.created_at) a) ≤ a ∧
    ∀ j ∈ l, (l.foldl (fun acc j => min acc j.created_at) a) ≤ j.created_at := by
  induction l generalizing a with
  | nil => simp
  | cons x xs ih =>
    simp only [List.foldl_cons]
    refine ⟨le_trans (ih (min a x.created_at)).1 (min_le_left _ _), ?_⟩
    intro j hj
    rcases List.mem_cons.mp hj with h | h
    · subst h
      exact le_trans (ih (min a j.created_at)).1 (min_le_right _ _)
    · exact (ih (min a x.created_at)).2 j h

/-- A `foldl` of `max` over creation instants bounds its seed and every
element from above. -/
theorem foldl_max_ge (l : List Item) (a : Nat) :
    a ≤ (l.foldl (fun acc j => max acc j.created_at) a) ∧
    ∀ j ∈ l, j.created_at ≤ (l.foldl (fun acc j => max acc j.created_at) a) := by
  induction l generalizing a with
  | nil => simp
  | cons x xs ih =>
    simp only [List.foldl_cons]
    refine ⟨le_trans (le_max_left _ _) (ih (max a x.created_at)).1, ?_⟩
    intro j hj
    rcases List.mem_cons.mp hj with h | h
    · subst h
      exact le_trans (le_max_right _ _) (ih (max a j.created_at)).1
    · exact (ih (max a x.created_at)).2 j h

/-- The `min` fold lands on its seed or on an element. -/
theorem foldl_min_mem (l : List Item) (a : Nat) :
    (l.foldl (fun acc j => min acc j.created_at) a) = a ∨
    (l.foldl (fun acc j => min acc j.created_at) a) ∈ l.map Item.created_at := by
  induction l generalizing a with
  | nil => exact Or.inl rfl
  | cons x xs ih =>
    simp only [List.foldl_cons, List.map_cons, List.mem_cons]
    rcases ih (min a x.created_at) with h | h
    · rcases min_choice a x.created_at with hm | hm
      · exact Or.inl (h.trans hm)
      · exact Or.inr (Or.inl (h.trans hm))
    · exact Or.inr (Or.inr h)

/-- The `max` fold lands on its seed or on an element. -/
theorem foldl_max_mem (l : List Item) (a : Nat) :
    (l.foldl (fun acc j => max acc j.created_at) a) = a ∨
    (l.foldl (fun acc j => max acc j.created_at) a) ∈ l.map Item.created_at := by
  induction l generalizing a with
  | nil => exact Or.inl rfl
  | cons x xs ih =>
    simp only [List.foldl_cons, List.map_cons, List.mem_cons]
    rcases ih (max a x.created_at) with h | h
    · rcases max_choice a x.created_at with hm | hm
      · exact Or.inl (h.trans hm)
      · exact Or.inr (Or.inl (h.trans hm))
    · exact Or.inr (Or.inr h)

/-- `natDescLE` is transitive. -/
theorem natDescLE_trans (a b c : Nat) (h1 : natDescLE a b = true)
    (h2 : natDescLE b c = true) : natDescLE a c = true := by
  simp only [natDescLE, decide_eq_true_eq] at h1 h2 ⊢
  omega

/-- `natDescLE` is total. -/
theorem natDescLE_total (a b : Nat) : (natDescLE a b || natDescLE b a) = true := by
  simp only [natDescLE, Bool.or_eq_true, decide_eq_true_eq]
  omega

/-- With a nonempty items table the analytics query yields the aggregate
payload. -/
theorem analytics_eq_cons (monthOf : Nat → Nat) (db : DB) (i0 : Item) (rest : List Item)
    (hdb : db.items = i0 :: rest) :
    get_items_analytics_raw_sql monthOf db = some (analyticsOf monthOf i0 rest) := by
  unfold get_items_analytics_raw_sql
  rw [hdb]

/-- C7: analytics returns, in one query, the total item count, the earliest
and latest creation instants, and a per-month breakdown whose entries carry
the month's item count and its average name length rounded to 2 decimals,
ordered newest month first over exactly the months that occur; with no
items at all it returns the empty structure rather than failing. -/
theorem items_analytics_summary (monthOf : Nat → Nat) (db : DB) :
    (db.items = [] → get_items_analytics_raw_sql monthOf db = none)
    ∧ (db.items ≠ [] → ∃ a, get_items_analytics_raw_sql monthOf db = some a)
    ∧ (∀ a, get_items_analytics_raw_sql monthOf db = some a →
        a.total_items = db.items.length
        ∧ (∀ i ∈ db.items, a.first_item_date ≤ i.created_at ∧ i.created_at ≤ a.last_item_date)
        ∧ a.first_item_date ∈ db.items.map Item.created_at
        ∧ a.last_item_date ∈ db.items.map Item.created_at
        ∧ (a.monthly_breakdown.map MonthEntry.month).Pairwise (fun m1 m2 => m2 ≤ m1)
        ∧ (∀ e ∈ a.monthly_breakdown,
            e.items_created =
              (db.items.filter (fun i => monthOf i.created_at == e.month)).length
            ∧ e.avg_name_length = round2
                (((db.items.filter (fun i => monthOf i.created_at == e.month)).map
                    (fun i => (i.name.length : Rat))).sum /
                  ((db.items.filter (fun i => monthOf i.created_at == e.month)).length : Rat)))
        ∧ (∀ m, (∃ e ∈ a.monthly_breakdown, e.month = m) ↔
            ∃ i ∈ db.items, monthOf i.created_at = m)) := by
  cases hdb : db.items with
  | nil =>
    refine ⟨fun _ => ?_, fun h => absurd rfl h, fun a ha => ?_⟩
    · unfold get_items_analytics_raw_sql
      rw [hdb]
    · have hnone : get_items_analytics_raw_sql monthOf db = none := by
        unfold get_items_analytics_raw_sql
        rw [hdb]
      rw [hnone] at ha
      cases ha
  | cons i0 rest =>
    have hsome := analytics_eq_cons monthOf db i0 rest hdb
    refine ⟨?_, ?_, fun a ha => ?_⟩
    · intro h
      exact nomatch h
    · intro _
      exact ⟨_, hsome⟩
    have haA : a = analyticsOf monthOf i0 rest := by
      rw [hsome] at ha
      exact (Option.some.injEq _ _).mp ha.symm
    subst haA
    refine ⟨by simp [analyticsOf], ?_, ?_, ?_, ?_, ?_, ?_⟩
    · intro i hi
      rcases List.mem_cons.mp hi with h | h
      · subst h
        exact ⟨(foldl_min_le rest i.created_at).1, (foldl_max_ge rest i.created_at).1⟩
      · exact ⟨(foldl_min_le rest i0.created_at).2 i h, (foldl_max_ge rest i0.created_at).2 i h⟩
    · rcases foldl_min_mem rest i0.created_at with h | h
      · simp [analyticsOf, h]
      · simp only [analyticsOf, List.map_cons, List.mem_cons]
        exact Or.inr h
    · rcases foldl_max_mem rest i0.created_at with h | h
      · simp [analyticsOf, h]
      · simp only [analyticsOf, List.map_cons, List.mem_cons]
        exact Or.inr h
    · have hmap : (analyticsOf monthOf i0 rest).monthly_breakdown.map MonthEntry.month =
          monthsSorted monthOf (i0 :: rest) := by
        simp only [analyticsOf, List.map_map]
        have hcomp : (MonthEntry.month ∘ monthEntry monthOf (i0 :: rest)) = id := by
          funext m
          rfl
        rw [hcomp, List.map_id]
      rw [hmap]
      have hs := List.sorted_mergeSort natDescLE_trans natDescLE_total
        (((i0 :: rest).map (fun i => monthOf i.created_at)).dedup)
      refine hs.imp ?_
      intro m1 m2 h
      simpa [natDescLE] using h
    · intro e he
      simp only [analyticsOf, List.mem_map] at he
      obtain ⟨m, _, he⟩ := he
      subst he
      constructor
      · simp [monthEntry]
      · simp [monthEntry]
    · intro m
      constructor
      · rintro ⟨e, he, hm⟩
        simp only [analyticsOf, List.mem_map] at he
        obtain ⟨m2, hm2, he⟩ := he
        subst he
        simp only [monthEntry] at hm
        subst hm
        rw [monthsSorted, List.mem_mergeSort, List.mem_dedup, List.mem_map] at hm2
        obtain ⟨i, hi, hmi⟩ := hm2
        exact ⟨i, hi, hmi⟩
      · rintro ⟨i, hi, hmi⟩
        refine ⟨monthEntry monthOf (i0 :: rest) m, ?_, rfl⟩
        simp only [analyticsOf, List.mem_map]
        refine ⟨m, ?_, rfl⟩
        rw [monthsSorted, List.mem_mergeSort, List.mem_dedup, List.mem_map]
        exact ⟨i, hi, hmi⟩

/-- C7 witness: over an empty table the analytics payload is the empty
structure, and over two items in different months it is a populated
structure counting both. -/
theorem items_analytics_summary_witness :
    get_items_analytics_raw_sql (fun t => t / 30) ⟨[], [], 1⟩ = none ∧
    ∃ a, get_items_analytics_raw_sql (fun t => t / 30)
        ⟨[⟨1, "ab", none, 10⟩, ⟨2, "abcd", none, 40⟩], [], 3⟩ = some a ∧
      a.total_items = 2 := by
  constructor
  · exact (items_analytics_summary (fun t => t / 30) ⟨[], [], 1⟩).1 rfl
  · obtain ⟨a, ha⟩ := (items_analytics_summary (fun t => t / 30)
      ⟨[⟨1, "ab", none, 10⟩, ⟨2, "abcd", none, 40⟩], [], 3⟩).2.1 (by decide)
    refine ⟨a, ha, ?_⟩
    have h := ((items_analytics_summary (fun t => t / 30)
      ⟨[⟨1, "ab", none, 10⟩, ⟨2, "abcd", none, 40⟩], [], 3⟩).2.2 a ha).1
    simpa using h

/-- Dropping leading whitespace skips over any all-whitespace prefix. -/
theorem dropWhile_space_append (l1 l2 : List Char) (h : ∀ c ∈ l1, pyIsSpace c = true) :
    (l1 ++ l2).dropWhile pyIsSpace = l2.dropWhile pyIsSpace := by
  induction l1 with
  | nil => rfl
  | cons x xs ih =>
    have hx := h x (List.mem_cons_self x xs)
    simp only [List.cons_append, List.dropWhile_cons, hx, if_true]
    exact ih (fun c hc => h c (List.mem_cons_of_mem x hc))

/-- An all-whitespace list is stripped to nothing by `dropWhile`. -/
theorem dropWhile_space_eq_nil (l : List Char) (h : ∀ c ∈ l, pyIsSpace c = true) :
    l.dropWhile pyIsSpace = [] := by
  have := dropWhile_space_append l [] h
  simpa using this

/-- `str.strip()` ignores surrounding whitespace: stripping
`ws1 ++ l ++ ws2` with whitespace-only `ws1` and `ws2` strips just `l`. -/
theorem pyStrip_append (ws1 ws2 l : List Char)
    (h1 : ∀ c ∈ ws1, pyIsSpace c = true) (h2 : ∀ c ∈ ws2, pyIsSpace c = true) :
    pyStrip (ws1 ++ l ++ ws2) = pyStrip l := by
  unfold pyStrip
  rw [List.append_assoc, dropWhile_space_append ws1 (l ++ ws2) h1, List.dropWhile_append]
  by_cases hl : (l.dropWhile pyIsSpace).isEmpty
  · rw [if_pos hl, dropWhile_space_eq_nil ws2 h2, List.isEmpty_iff.mp hl]
  · rw [if_neg hl, List.reverse_append,
      dropWhile_space_append ws2.reverse _ (fun c hc => h2 c (List.mem_reverse.mp hc))]

/-- Whitespace characters are fixed points of `lower()`. -/
theorem space_toLower (c : Char) (h : pyIsSpace c = true) : Char.toLower c = c := by
  simp only [pyIsSpace, Bool.or_eq_true, beq_iff_eq] at h
  rcases h with ⟨⟨⟨⟨h | h⟩ | h⟩ | h⟩ | h⟩ | h <;> subst h <;> decide

/-- A character whose lowering lands in "select" is not whitespace. -/
theorem select_char_not_space (c : Char) (h : Char.toLower c ∈ "select".toList) :
    pyIsSpace c = false := by
  by_contra hcon
  have hc : pyIsSpace c = true := by
    cases hcp : pyIsSpace c
    · exact absurd hcp hcon
    · rfl
  rw [space_toLower c hc] at h
  simp only [pyIsSpace, Bool.or_eq_true, beq_iff_eq] at hc
  rcases hc with ⟨⟨⟨⟨h' | h'⟩ | h'⟩ | h'⟩ | h'⟩ | h' <;> subst h' <;>
    exact absurd h (by decide)

/-- Stripping whitespace never destroys a leading case-variant of "select". -/
theorem pyStrip_keeps_select (l : List Char)
    (h : "select".toList <+: l.map Char.toLower) :
    "select".toList <+: (pyStrip l).map Char.toLower := by
  obtain ⟨rest, hrest⟩ := h
  have hlen : 6 ≤ l.length := by
    have hl6 := congrArg List.length hrest
    simp only [List.length_map, List.length_append] at hl6
    have : ("select".toList).length = 6 := rfl
    omega
  have hl : l = l.take 6 ++ l.drop 6 := (List.take_append_drop 6 l).symm
  have hsel : (l.take 6).map Char.toLower = "select".toList := by
    rw [List.map_take, ← hrest]
    exact List.take_left' rfl
  have hselns : ∀ c ∈ l.take 6, pyIsSpace c = false := by
    intro c hc
    exact select_char_not_space c (hsel ▸ List.mem_map_of_mem Char.toLower hc)
  have hsellen : (l.take 6).length = 6 := by
    rw [List.length_take]
    omega
  obtain ⟨c0, sel', hc0⟩ : ∃ c0 sel', l.take 6 = c0 :: sel' := by
    cases hsel6 : l.take 6 with
    | nil => rw [hsel6] at hsellen; cases hsellen
    | cons a b => exact ⟨a, b, rfl⟩
  have hdl : l.dropWhile pyIsSpace = l := by
    conv_lhs => rw [hl, hc0]
    rw [List.cons_append, List.dropWhile_cons,
      if_neg (by rw [hselns c0 (hc0 ▸ List.mem_cons_self c0 sel')]; exact Bool.false_ne_true),
      ← List.cons_append, ← hc0]
    exact hl.symm
  unfold pyStrip
  rw [hdl]
  conv_rhs => rw [hl, List.reverse_append, List.dropWhile_append]
  by_cases hcase : ((l.drop 6).reverse.dropWhile pyIsSpace).isEmpty
  · rw [if_pos hcase]
    have hrs : (l.take 6).reverse.dropWhile pyIsSpace = (l.take 6).reverse := by
      rw [hc0]
      obtain ⟨d0, ds, hd⟩ : ∃ d0 ds, (c0 :: sel').reverse = d0 :: ds := by
        cases hrev : (c0 :: sel').reverse with
        | nil =>
          have := congrArg List.length hrev
          simp at this
        | cons a b => exact ⟨a, b, rfl⟩
      rw [hd, List.dropWhile_cons, if_neg ?_]
      have hd0 : d0 ∈ (c0 :: sel') := by
        rw [← List.mem_reverse, hd]
        exact List.mem_cons_self d0 ds
      rw [hselns d0 (hc0 ▸ hd0)]
      exact Bool.false_ne_true
    rw [hrs, List.reverse_reverse, hsel]
  · rw [if_neg hcase, List.reverse_append, List.reverse_reverse, List.map_append, hsel]
    exact ⟨_, rfl⟩

/-- C10: the debug endpoint's keyword check strips surrounding whitespace
before lowering and comparing — any query made of whitespace, then a
case-variant of "select" continuing into arbitrary text, then whitespace,
passes the check, so the handler proceeds to execute it rather than answer
the 400 keyword rejection. -/
theorem debug_select_check_strips_whitespace
    (ws1 ws2 l : List Char) (runQuery : String → Except String (List RawRow))
    (h1 : ∀ c ∈ ws1, pyIsSpace c = true) (h2 : ∀ c ∈ ws2, pyIsSpace c = true)
    (h3 : "select".toList <+: l.map Char.toLower) :
    startsWithSelect (String.mk (ws1 ++ l ++ ws2)) = true ∧
    debug_raw_query "development" runQuery (String.mk (ws1 ++ l ++ ws2)) =
      (match runQuery (String.mk (ws1 ++ l ++ ws2)) with
       | .ok rows => .ok ⟨String.mk (ws1 ++ l ++ ws2), rows⟩
       | .error e => .error ⟨400, e⟩) := by
  have hcheck : startsWithSelect (String.mk (ws1 ++ l ++ ws2)) = true := by
    unfold startsWithSelect
    have hstr : (String.mk (ws1 ++ l ++ ws2)).toList = ws1 ++ l ++ ws2 := rfl
    rw [hstr, pyStrip_append ws1 ws2 l h1 h2, List.isPrefixOf_iff_prefix]
    exact pyStrip_keeps_select l h3
  refine ⟨hcheck, ?_⟩
  simp only [debug_raw_query, hcheck, Bool.not_true, ne_eq, not_true_eq_false, if_false,
    Bool.false_eq_true, reduceIte]

/-- C10 witness: two leading spaces, a mixed-case SELECT and a trailing
newline pass the keyword check and reach execution. -/
theorem debug_select_check_strips_whitespace_witness :
    startsWithSelect (String.mk ([' ', ' '] ++ "SeLeCt 1".toList ++ ['\n'])) = true ∧
    debug_raw_query "development" (fun _ => .ok [])
        (String.mk ([' ', ' '] ++ "SeLeCt 1".toList ++ ['\n'])) =
      .ok ⟨String.mk ([' ', ' '] ++ "SeLeCt 1".toList ++ ['\n']), []⟩ := by
  have h := debug_select_check_strips_whitespace [' ', ' '] ['\n'] "SeLeCt 1".toList
    (fun _ => .ok []) (by decide) (by decide) (by decide)
  exact ⟨h.1, by rw [h.2]⟩

end Hybrid
